import Mathlib

/-!
Shallow embedding of the BMW ELV Tracking backend (`src/main.py`, `src/schemas.py`).

Conventions of the embedding:
* JSON-ish values are `JVal`; a Python `dict` (a Mongo document) is `Doc`,
  an insertion-ordered association list.
* `datetime` values are modelled as natural numbers.  Every call of
  `datetime.now(timezone.utc)` is modelled by reading a monotone time source
  `times : Nat → Nat` at a call counter that is threaded through the state and
  incremented at each call.
* Mongo `ObjectId`s are modelled as naturals; the string form of an id is its
  decimal representation, and `parseObjectId` plays the role of the fallible
  `ObjectId(...)` constructor (some strings are well-formed ids, some are not).
* Python exceptions are modelled with `Except String`; code that raises after
  having already written to the store returns the error together with the
  mutated store, since the store is external state that survives the exception.
-/

namespace ELV

/-- A JSON-like value as it appears in request payloads and stored documents.
The open-ended container fields of the data model (`photos: List[str]`;
the free-form `last_known_location` / `metadata` / `location` maps, whose
interior no code path ever inspects) are modelled by the flat constructors
`jStrArr` and `jMap`. -/
inductive JVal where
  | jNull : JVal
  | jBool : Bool → JVal
  | jStr : String → JVal
  | jInt : Int → JVal
  | jTime : Nat → JVal
  | jStrArr : List String → JVal
  | jMap : List (String × String) → JVal
deriving DecidableEq, Repr

/-- A document / Python dict: insertion-ordered association list. -/
abbrev Doc := List (String × JVal)

/-- `d.get k` is Python's `d.get(k)`: the value at key `k`, if present. -/
def Doc.get (d : Doc) (k : String) : Option JVal :=
  (d.find? (fun p => p.1 = k)).map (fun p => p.2)

/-- `d.set k v` is Python's `d[k] = v`: replace the binding in place if the
key exists (keeping its position, as Python dicts do — dict keys are unique),
otherwise append. -/
def Doc.set : Doc → String → JVal → Doc
  | [], k, v => [(k, v)]
  | (k₀, v₀) :: d, k, v =>
    if k₀ = k then (k, v) :: d else (k₀, v₀) :: Doc.set d k v

/-- `d.setdefault k v` is Python's `d.setdefault(k, v)`: insert `v` only when
the key is absent (a present key keeps its value, even a null one). -/
def Doc.setdefault (d : Doc) (k : String) (v : JVal) : Doc :=
  if (d.get k).isSome then d else d ++ [(k, v)]

/-- Python truthiness of `d.get(k)` as used in `if data.get("vehicle_id") and ...`:
`None`, `""`, `0`, `False` and empty containers are falsy. -/
def truthy : Option JVal → Bool
  | none => false
  | some .jNull => false
  | some (.jBool b) => b
  | some (.jStr s) => !(s = "")
  | some (.jInt n) => !(n = 0)
  | some (.jTime _) => true
  | some (.jStrArr l) => !l.isEmpty
  | some (.jMap l) => !l.isEmpty

/-- The three Mongo collections the endpoints write to. -/
inductive Coll where
  | vehicle
  | event
  | part
deriving DecidableEq, Repr

/-- The document store: one association list of `(id, document)` per
collection, plus the next id the store will assign. -/
structure Store where
  vehicle : List (Nat × Doc)
  event : List (Nat × Doc)
  part : List (Nat × Doc)
  nextId : Nat
deriving DecidableEq, Repr

/-- The empty store. -/
def Store.empty : Store := ⟨[], [], [], 0⟩

def Store.coll (st : Store) : Coll → List (Nat × Doc)
  | .vehicle => st.vehicle
  | .event => st.event
  | .part => st.part

/-- Modelled from the spec: the Document Store Adapter's
`insert(collection, doc) -> id` (`create_document` lives in `database.py`,
which is not part of the sources): append the document to the collection under
a fresh store-assigned id and return that id. -/
def create_document (c : Coll) (d : Doc) (st : Store) : Nat × Store :=
  let i := st.nextId
  match c with
  | .vehicle => (i, { st with vehicle := st.vehicle ++ [(i, d)], nextId := i + 1 })
  | .event => (i, { st with event := st.event ++ [(i, d)], nextId := i + 1 })
  | .part => (i, { st with part := st.part ++ [(i, d)], nextId := i + 1 })

/-- `db["vehicle"].update_one({"_id": vid}, {"$set": patch})`: apply the patch
to the vehicle whose id matches; if no document matches this is a no-op. -/
def Store.updateVehicle (st : Store) (vid : Nat) (patch : Doc) : Store :=
  { st with
    vehicle := st.vehicle.map (fun p =>
      if p.1 = vid then (p.1, patch.foldl (fun d kv => d.set kv.1 kv.2) p.2) else p) }

/-- `_serialize`: surface the store-assigned id to the client as a plain
string field `id`. -/
def serialize (i : Nat) (d : Doc) : Doc := d ++ [("id", .jStr (toString i))]

/-- `db[coll].find_one({"_id": i})`. -/
def Store.find_one (st : Store) (c : Coll) (i : Nat) : Option Doc :=
  ((st.coll c).find? (fun p => p.1 = i)).map (fun p => p.2)

/-- Request-handling state: the store plus the `datetime.now` call counter. -/
structure Ctx where
  store : Store
  ctr : Nat
deriving DecidableEq, Repr

/-- A JSON field of a request body, as pydantic sees it: absent from the
body, explicitly `null`, or carrying a value. -/
inductive Field (α : Type) where
  | omitted : Field α
  | null : Field α
  | val : α → Field α
deriving DecidableEq, Repr

/-- Pydantic parsing of one `Optional[...]` field with default `d`:
an omitted field takes the default, an explicit `null` becomes `None`,
a value is kept. -/
def Field.parse {α : Type} (d : Option α) : Field α → Option α
  | .omitted => d
  | .null => none
  | .val a => some a

/-- One field of a `model_dump(exclude_none=True)` result: `None` fields are
dropped entirely. -/
def optField (k : String) (v : Option JVal) : Doc :=
  match v with
  | none => []
  | some x => [(k, x)]

/-- The raw JSON body of `POST /api/vehicles`, field by field. -/
structure VehicleInput where
  vin : Field String := .omitted
  make : Field String := .omitted
  model : Field String := .omitted
  year : Field Int := .omitted
  engine_condition : Field String := .omitted
  body_condition : Field String := .omitted
  damage_level : Field String := .omitted
  photos : Field (List String) := .omitted
  last_known_location : Field (List (String × String)) := .omitted
  owner_id : Field String := .omitted
  status : Field String := .omitted
deriving DecidableEq, Repr

/-- `CreateVehiclePayload` (main.py): all fields `Optional[str]`-shaped plain
strings — no `Literal` enum constraint — with `"unknown"` defaults on the
condition and status fields. -/
structure CreateVehiclePayload where
  vin : Option String := none
  make : Option String := none
  model : Option String := none
  year : Option Int := none
  engine_condition : Option String := some "unknown"
  body_condition : Option String := some "unknown"
  damage_level : Option String := some "unknown"
  photos : Option (List String) := none
  last_known_location : Option (List (String × String)) := none
  owner_id : Option String := none
  status : Option String := some "unknown"
deriving DecidableEq, Repr

/-- Pydantic validation of a vehicle body against `CreateVehiclePayload`.
Every field is optional, so parsing never fails; string fields accept any
string (the payload class carries no enum constraint). -/
def CreateVehiclePayload.parse (b : VehicleInput) : CreateVehiclePayload where
  vin := b.vin.parse none
  make := b.make.parse none
  model := b.model.parse none
  year := b.year.parse none
  engine_condition := b.engine_condition.parse (some "unknown")
  body_condition := b.body_condition.parse (some "unknown")
  damage_level := b.damage_level.parse (some "unknown")
  photos := b.photos.parse none
  last_known_location := b.last_known_location.parse none
  owner_id := b.owner_id.parse none
  status := b.status.parse (some "unknown")

/-- `payload.model_dump(exclude_none=True)` for a vehicle payload. -/
def CreateVehiclePayload.dump (p : CreateVehiclePayload) : Doc :=
  optField "vin" (p.vin.map .jStr) ++
  optField "make" (p.make.map .jStr) ++
  optField "model" (p.model.map .jStr) ++
  optField "year" (p.year.map .jInt) ++
  optField "engine_condition" (p.engine_condition.map .jStr) ++
  optField "body_condition" (p.body_condition.map .jStr) ++
  optField "damage_level" (p.damage_level.map .jStr) ++
  optField "photos" (p.photos.map .jStrArr) ++
  optField "last_known_location" (p.last_known_location.map .jMap) ++
  optField "owner_id" (p.owner_id.map .jStr) ++
  optField "status" (p.status.map .jStr)

/-- `EventPayload` (main.py): `event_type` is a required plain string (no
`Literal` enum constraint); everything else is optional. -/
structure EventPayload where
  vehicle_id : Option String := none
  event_type : String
  actor_id : Option String := none
  notes : Option String := none
  metadata : Option (List (String × String)) := none
  location : Option (List (String × String)) := none
  occurred_at : Option Nat := none
deriving DecidableEq, Repr

/-- `payload.model_dump(exclude_none=True)` for an event payload. -/
def EventPayload.dump (p : EventPayload) : Doc :=
  optField "vehicle_id" (p.vehicle_id.map .jStr) ++
  [("event_type", .jStr p.event_type)] ++
  optField "actor_id" (p.actor_id.map .jStr) ++
  optField "notes" (p.notes.map .jStr) ++
  optField "metadata" (p.metadata.map .jMap) ++
  optField "location" (p.location.map .jMap) ++
  optField "occurred_at" (p.occurred_at.map .jTime)

/-- The raw JSON body of `POST /api/parts`, field by field. -/
structure PartInput where
  vehicle_id : Field String := .omitted
  name : Field String := .omitted
  serial_number : Field String := .omitted
  condition : Field String := .omitted
  location : Field String := .omitted
  price_etb : Field Int := .omitted
deriving DecidableEq, Repr

/-- `PartPayload` (main.py): `name` is required; `condition` is a plain
optional string defaulting to `"unknown"` — no enum constraint.  (`price_etb`
is an opaque number never computed with; it is carried as an integer.) -/
structure PartPayload where
  vehicle_id : Option String := none
  name : String
  serial_number : Option String := none
  condition : Option String := some "unknown"
  location : Option String := none
  price_etb : Option Int := none
deriving DecidableEq, Repr

/-- Pydantic validation of a part body: fails (HTTP 422) exactly when the
required `name` is absent or null; no other constraint. -/
def PartPayload.parse (b : PartInput) : Except String PartPayload :=
  match b.name with
  | .omitted => .error "field required: name"
  | .null => .error "field required: name"
  | .val n => .ok
    { vehicle_id := b.vehicle_id.parse none
      name := n
      serial_number := b.serial_number.parse none
      condition := b.condition.parse (some "unknown")
      location := b.location.parse none
      price_etb := b.price_etb.parse none }

/-- `payload.model_dump(exclude_none=True)` for a part payload. -/
def PartPayload.dump (p : PartPayload) : Doc :=
  optField "vehicle_id" (p.vehicle_id.map .jStr) ++
  [("name", .jStr p.name)] ++
  optField "serial_number" (p.serial_number.map .jStr) ++
  optField "condition" (p.condition.map .jStr) ++
  optField "location" (p.location.map .jStr) ++
  optField "price_etb" (p.price_etb.map .jInt)

/-- `POST /api/vehicles`: dump the payload with `None` fields stripped,
insert it, read it back and serialize it.  Never consults any enum. -/
def create_vehicle (p : CreateVehiclePayload) (ctx : Ctx) : Option Doc × Ctx :=
  let data := p.dump
  let (i, st) := create_document .vehicle data ctx.store
  ((st.find_one .vehicle i).map (serialize i), ⟨st, ctx.ctr⟩)

/-- `POST /api/parts`: dump, insert, read back, serialize. -/
def register_part (p : PartPayload) (ctx : Ctx) : Option Doc × Ctx :=
  let data := p.dump
  let (i, st) := create_document .part data ctx.store
  ((st.find_one .part i).map (serialize i), ⟨st, ctx.ctr⟩)

/-- The fallible `ObjectId(...)` constructor applied to a vehicle-id string.
In this embedding document ids are naturals whose string form is decimal, so
a string is a well-formed id exactly when it is a nonempty digit string, and
it then denotes the numeral it spells; any other string raises. -/
def parseObjectId (s : String) : Option Nat :=
  if s.data ≠ [] ∧ s.data.all (fun c => c.isDigit) then
    some (s.data.foldl (fun n c => n * 10 + (c.toNat - 48)) 0)
  else none

/-- The event document `log_event` inserts: the dumped payload with
`occurred_at` defaulted (via `dict.setdefault`) to the clock reading at
entry — `data.setdefault("occurred_at", datetime.now(timezone.utc))`. -/
def eventDoc (times : Nat → Nat) (p : EventPayload) (ctx : Ctx) : Doc :=
  (p.dump).setdefault "occurred_at" (.jTime (times ctx.ctr))

/-- `POST /api/events` (`log_event` in main.py), with `times` the time
source.  Steps, in source order: dump the payload; default `occurred_at` to
`now` (the `now` is evaluated unconditionally); insert the event; if
`data.get("vehicle_id")` is truthy and `event_type` is `dismantling` or
`scrap`, run `update_one` on the vehicle — building its filter first parses
the id with `ObjectId(...)`, which raises on a malformed id AFTER the event
was inserted; the `$set` patch stamps the derived status and a fresh
`updated_at`.  A raise surfaces as `.error` while keeping the store writes
that already happened. -/
def log_event (times : Nat → Nat) (p : EventPayload) (ctx : Ctx) :
    Except String Doc × Ctx :=
  let data := eventDoc times p ctx
  let c1 := ctx.ctr + 1
  let (eid, st1) := create_document .event data ctx.store
  if truthy (data.get "vehicle_id") ∧
      (data.get "event_type" = some (.jStr "dismantling") ∨
       data.get "event_type" = some (.jStr "scrap")) then
    match data.get "vehicle_id" with
    | some (.jStr s) =>
      match parseObjectId s with
      | none => (.error (s ++ " is not a valid ObjectId"), ⟨st1, c1⟩)
      | some vid =>
        let status :=
          if data.get "event_type" = some (.jStr "dismantling") then "dismantled"
          else "scrapped"
        let st2 := st1.updateVehicle vid
          [("status", .jStr status), ("updated_at", .jTime (times c1))]
        (.ok (serialize eid data), ⟨st2, c1 + 1⟩)
    | _ => (.error "not a valid ObjectId", ⟨st1, c1⟩)
  else
    (.ok (serialize eid data), ⟨st1, c1⟩)

/-- A sync mutation as main.py declares it: `op` is a plain string (the
`Literal` of schemas.py is not the class main.py uses) and `data` is a raw
dict that is never validated against any payload class. -/
structure Mutation where
  op : String
  data : Doc
  client_id : String
  client_timestamp : Nat
deriving DecidableEq, Repr

/-- Outcome of one sync mutation: exactly one of ok / ignored / error. -/
inductive MStatus where
  | ok : Nat → MStatus
  | ignored : String → MStatus
  | error : String → MStatus
deriving DecidableEq, Repr

/-- One entry of the sync result list: the mutation's `op` plus its outcome. -/
structure MutResult where
  op : String
  res : MStatus
deriving DecidableEq, Repr

/-- The store-insertion capability `create_document` seen by the sync loop;
kept abstract so that persistence failures (which the loop must catch) are
representable. -/
abbrev InsertFn := Coll → Doc → Store → Except String (Nat × Store)

/-- The concrete in-memory store's insertion, which always succeeds. -/
def storeInsert : InsertFn := fun c d st => .ok (create_document c d st)

/-- The body of the `for` loop in `sync`, for one mutation: dispatch on
`op`; `logEvent` first defaults `occurred_at` to `now` (one clock read);
unknown ops yield an `ignored` result; an insertion failure is caught and
becomes an `error` result, leaving the store as it was. -/
def syncStep (ins : InsertFn) (times : Nat → Nat) (m : Mutation) (ctx : Ctx) :
    MutResult × Ctx :=
  if m.op = "createVehicle" then
    match ins .vehicle m.data ctx.store with
    | .ok (i, st) => (⟨m.op, .ok i⟩, ⟨st, ctx.ctr⟩)
    | .error e => (⟨m.op, .error e⟩, ctx)
  else if m.op = "logEvent" then
    let data := m.data.setdefault "occurred_at" (.jTime (times ctx.ctr))
    match ins .event data ctx.store with
    | .ok (i, st) => (⟨m.op, .ok i⟩, ⟨st, ctx.ctr + 1⟩)
    | .error e => (⟨m.op, .error e⟩, ⟨ctx.store, ctx.ctr + 1⟩)
  else if m.op = "registerPart" then
    match ins .part m.data ctx.store with
    | .ok (i, st) => (⟨m.op, .ok i⟩, ⟨st, ctx.ctr⟩)
    | .error e => (⟨m.op, .error e⟩, ctx)
  else
    (⟨m.op, .ignored "unknown op"⟩, ctx)

/-- The `for` loop of `sync` over an already-sorted mutation list: one
result per mutation, state threaded left to right. -/
def syncRun (ins : InsertFn) (times : Nat → Nat) :
    List Mutation → Ctx → List MutResult × Ctx
  | [], ctx => ([], ctx)
  | m :: ms, ctx =>
    let s := syncStep ins times m ctx
    let rest := syncRun ins times ms s.2
    (s.1 :: rest.1, rest.2)

/-- Comparison key of `sorted(envelope.mutations, key=lambda x: x.client_timestamp)`. -/
def tsLE (a b : Mutation) : Prop := a.client_timestamp ≤ b.client_timestamp

instance : DecidableRel tsLE := fun a b => Nat.decLe a.client_timestamp b.client_timestamp

instance : IsTotal Mutation tsLE := ⟨fun a b => Nat.le_total a.client_timestamp b.client_timestamp⟩

instance : IsTrans Mutation tsLE := ⟨fun _ _ _ => Nat.le_trans⟩

/-- Python's `sorted` is a stable ascending sort; it is embedded as
insertion sort, which is stable for the same tie-breaking order. -/
def syncSort (ms : List Mutation) : List Mutation := ms.insertionSort tsLE

/-- The response of `POST /api/sync`. -/
structure SyncResponse where
  results : List MutResult
  server_time : Nat
deriving DecidableEq, Repr

/-- `POST /api/sync`: stable-sort the batch by `client_timestamp`, run the
loop, and return all results plus `datetime.now` as `server_time`. -/
def sync (ins : InsertFn) (times : Nat → Nat) (muts : List Mutation) (ctx : Ctx) :
    SyncResponse × Ctx :=
  let run := syncRun ins times (syncSort muts) ctx
  (⟨run.1, times run.2.ctr⟩, ⟨run.2.store, run.2.ctr + 1⟩)

/-! ### Dictionary lemmas -/

theorem Doc.get_nil (k : String) : Doc.get [] k = none := rfl

theorem Doc.get_cons (k₀ k : String) (v₀ : JVal) (d : Doc) :
    Doc.get ((k₀, v₀) :: d) k = if k₀ = k then some v₀ else d.get k := by
  by_cases h : k₀ = k <;> simp [Doc.get, List.find?, h]

theorem Doc.get_append (d₁ d₂ : Doc) (k : String) :
    Doc.get (d₁ ++ d₂) k = (d₁.get k).orElse (fun _ => d₂.get k) := by
  induction d₁ with
  | nil => simp [Doc.get]
  | cons p d ih =>
    obtain ⟨k₀, v₀⟩ := p
    by_cases h : k₀ = k <;>
      simp [Doc.get_cons, h, ih, Option.orElse]

theorem Doc.get_set_self (d : Doc) (k : String) (v : JVal) :
    (d.set k v).get k = some v := by
  induction d with
  | nil => simp [Doc.set, Doc.get_cons]
  | cons p d ih =>
    obtain ⟨k₀, v₀⟩ := p
    by_cases h : k₀ = k <;> simp [Doc.set, h, Doc.get_cons, ih]

theorem Doc.get_set_other (d : Doc) (k k' : String) (v : JVal) (h : k' ≠ k) :
    (d.set k v).get k' = d.get k' := by
  induction d with
  | nil => simp [Doc.set, Doc.get_cons, Ne.symm h]
  | cons p d ih =>
    obtain ⟨k₀, v₀⟩ := p
    by_cases h0 : k₀ = k
    · subst h0
      simp [Doc.set, Doc.get_cons, Ne.symm h]
    · simp [Doc.set, h0, Doc.get_cons, ih]

theorem Doc.setdefault_of_get_some (d : Doc) (k : String) (v w : JVal)
    (h : d.get k = some w) : d.setdefault k v = d := by
  simp [Doc.setdefault, h]

theorem Doc.get_setdefault_of_get_none (d : Doc) (k : String) (v : JVal)
    (h : d.get k = none) : (d.setdefault k v).get k = some v := by
  simp [Doc.setdefault, h, Doc.get_append, Doc.get_cons]

theorem Doc.get_setdefault_other (d : Doc) (k k' : String) (v : JVal)
    (h : k' ≠ k) : (d.setdefault k v).get k' = d.get k' := by
  unfold Doc.setdefault
  by_cases hs : (d.get k).isSome
  · simp [hs]
  · rw [if_neg hs, Doc.get_append]
    have hkv : Doc.get [(k, v)] k' = none := by
      simp [Doc.get_cons, Ne.symm h, Doc.get_nil]
    rw [hkv]
    cases d.get k' <;> rfl

theorem Doc.get_optField (k₁ k : String) (v : Option JVal) :
    Doc.get (optField k₁ v) k = if k₁ = k then v else none := by
  cases v with
  | none => simp [optField, Doc.get]
  | some x => by_cases h : k₁ = k <;> simp [optField, Doc.get_cons, Doc.get_nil, h]

/-! ### Stability of the sort used by the reconciler -/

theorem filter_orderedInsert_pos {α : Type} (r : α → α → Prop) [DecidableRel r]
    (p : α → Bool) (a : α) (hpa : p a = true)
    (hskip : ∀ b, ¬ r a b → p b = false) :
    ∀ l : List α, (l.orderedInsert r a).filter p = a :: l.filter p
  | [] => by simp [List.orderedInsert, hpa]
  | b :: l => by
    by_cases hr : r a b
    · simp [List.orderedInsert, hr, List.filter_cons, hpa]
    · simp [List.orderedInsert, hr, List.filter_cons, hskip b hr,
        filter_orderedInsert_pos r p a hpa hskip l]

theorem filter_orderedInsert_neg {α : Type} (r : α → α → Prop) [DecidableRel r]
    (p : α → Bool) (a : α) (hpa : p a = false) :
    ∀ l : List α, (l.orderedInsert r a).filter p = l.filter p
  | [] => by simp [List.orderedInsert, hpa]
  | b :: l => by
    by_cases hr : r a b
    · simp [List.orderedInsert, hr, List.filter_cons, hpa]
    · simp [List.orderedInsert, hr, List.filter_cons,
        filter_orderedInsert_neg r p a hpa l]

/-- Insertion sort is stable: it preserves the relative order of any class of
elements none of which may be strictly passed over during an insertion. -/
theorem filter_insertionSort {α : Type} (r : α → α → Prop) [DecidableRel r]
    (p : α → Bool)
    (hskip : ∀ a b, p a = true → ¬ r a b → p b = false) :
    ∀ l : List α, (l.insertionSort r).filter p = l.filter p
  | [] => rfl
  | a :: l => by
    by_cases hpa : p a
    · rw [List.insertionSort,
        filter_orderedInsert_pos r p a hpa (fun b hb => hskip a b hpa hb),
        filter_insertionSort r p hskip l, List.filter_cons_of_pos hpa]
    · rw [List.insertionSort,
        filter_orderedInsert_neg r p a (by simpa using hpa),
        filter_insertionSort r p hskip l,
        List.filter_cons_of_neg (by simpa using hpa)]

/-! ### Structure of the sync loop -/

theorem syncRun_nil (ins : InsertFn) (times : Nat → Nat) (ctx : Ctx) :
    syncRun ins times [] ctx = ([], ctx) := rfl

theorem syncRun_cons (ins : InsertFn) (times : Nat → Nat) (m : Mutation)
    (ms : List Mutation) (ctx : Ctx) :
    syncRun ins times (m :: ms) ctx =
      ((syncStep ins times m ctx).1 ::
        (syncRun ins times ms (syncStep ins times m ctx).2).1,
       (syncRun ins times ms (syncStep ins times m ctx).2).2) := rfl

theorem syncRun_length (ins : InsertFn) (times : Nat → Nat) :
    ∀ (l : List Mutation) (ctx : Ctx),
      ((syncRun ins times l ctx).1).length = l.length
  | [], _ => rfl
  | _ :: ms, ctx => by
    simp [syncRun_cons, syncRun_length ins times ms]

/-- Every per-mutation result is tagged with the mutation's own `op`. -/
theorem syncStep_op (ins : InsertFn) (times : Nat → Nat) (m : Mutation)
    (ctx : Ctx) : ((syncStep ins times m ctx).1).op = m.op := by
  unfold syncStep
  split_ifs <;> (try dsimp only) <;> first | rfl | (split <;> rfl)

theorem syncRun_map_op (ins : InsertFn) (times : Nat → Nat) :
    ∀ (l : List Mutation) (ctx : Ctx),
      ((syncRun ins times l ctx).1).map MutResult.op = l.map Mutation.op
  | [], _ => rfl
  | m :: ms, ctx => by
    simp [syncRun_cons, syncRun_map_op ins times ms, syncStep_op]

theorem syncRun_append (ins : InsertFn) (times : Nat → Nat) :
    ∀ (l₁ l₂ : List Mutation) (ctx : Ctx),
      syncRun ins times (l₁ ++ l₂) ctx =
        ((syncRun ins times l₁ ctx).1 ++
          (syncRun ins times l₂ (syncRun ins times l₁ ctx).2).1,
         (syncRun ins times l₂ (syncRun ins times l₁ ctx).2).2)
  | [], l₂, ctx => rfl
  | m :: ms, l₂, ctx => by
    simp [syncRun_cons, syncRun_append ins times ms l₂]

theorem syncStep_unknown_op (ins : InsertFn) (times : Nat → Nat) (m : Mutation)
    (ctx : Ctx) (h1 : m.op ≠ "createVehicle") (h2 : m.op ≠ "logEvent")
    (h3 : m.op ≠ "registerPart") :
    syncStep ins times m ctx = (⟨m.op, .ignored "unknown op"⟩, ctx) := by
  simp [syncStep, h1, h2, h3]

theorem syncStep_ctr_le (ins : InsertFn) (times : Nat → Nat) (m : Mutation)
    (ctx : Ctx) : ctx.ctr ≤ ((syncStep ins times m ctx).2).ctr := by
  unfold syncStep
  split_ifs <;> (try dsimp only) <;> (try split) <;> simp

theorem syncRun_ctr_le (ins : InsertFn) (times : Nat → Nat) :
    ∀ (l : List Mutation) (ctx : Ctx),
      ctx.ctr ≤ ((syncRun ins times l ctx).2).ctr
  | [], _ => Nat.le_refl _
  | m :: ms, ctx => by
    rw [syncRun_cons]
    exact Nat.le_trans (syncStep_ctr_le ins times m ctx)
      (syncRun_ctr_le ins times ms _)

/-- A persistence failure on a `createVehicle` mutation is caught and becomes
an `error` result; the state is untouched. -/
theorem syncStep_createVehicle_error (ins : InsertFn) (times : Nat → Nat)
    (m : Mutation) (ctx : Ctx) (e : String) (h : m.op = "createVehicle")
    (he : ins .vehicle m.data ctx.store = .error e) :
    syncStep ins times m ctx = (⟨m.op, .error e⟩, ctx) := by
  simp [syncStep, h, he]

/-- A persistence failure on a `logEvent` mutation is caught and becomes an
`error` result; the store is untouched (the clock was already read for the
`occurred_at` default). -/
theorem syncStep_logEvent_error (ins : InsertFn) (times : Nat → Nat)
    (m : Mutation) (ctx : Ctx) (e : String) (h : m.op = "logEvent")
    (he : ins .event (m.data.setdefault "occurred_at" (.jTime (times ctx.ctr)))
      ctx.store = .error e) :
    syncStep ins times m ctx = (⟨m.op, .error e⟩, ⟨ctx.store, ctx.ctr + 1⟩) := by
  simp [syncStep, h, he]

/-- A persistence failure on a `registerPart` mutation is caught and becomes
an `error` result; the state is untouched. -/
theorem syncStep_registerPart_error (ins : InsertFn) (times : Nat → Nat)
    (m : Mutation) (ctx : Ctx) (e : String) (h : m.op = "registerPart")
    (he : ins .part m.data ctx.store = .error e) :
    syncStep ins times m ctx = (⟨m.op, .error e⟩, ctx) := by
  simp [syncStep, h, he]

/-- With the concrete store, one loop iteration on a `logEvent` mutation
appends exactly one event document, with `occurred_at` defaulted at the
current clock. -/
theorem syncStep_logEvent_concrete (times : Nat → Nat) (m : Mutation)
    (ctx : Ctx) (h : m.op = "logEvent") :
    syncStep storeInsert times m ctx =
      (⟨m.op, .ok ctx.store.nextId⟩,
       ⟨{ ctx.store with
            event := ctx.store.event ++
              [(ctx.store.nextId,
                m.data.setdefault "occurred_at" (.jTime (times ctx.ctr)))],
            nextId := ctx.store.nextId + 1 },
        ctx.ctr + 1⟩) := by
  simp [syncStep, h, storeInsert, create_document]

/-- With the concrete store, any event document present after one loop
iteration was either there before or is the document of this very mutation,
a `logEvent` whose `occurred_at` was defaulted at the current clock. -/
theorem syncStep_event_origin (times : Nat → Nat) (m : Mutation) (ctx : Ctx) :
    ∀ e ∈ ((syncStep storeInsert times m ctx).2).store.event,
      e ∈ ctx.store.event ∨
        (m.op = "logEvent" ∧
          e = (ctx.store.nextId,
            m.data.setdefault "occurred_at" (.jTime (times ctx.ctr)))) := by
  intro e he
  by_cases h2 : m.op = "logEvent"
  · rw [syncStep_logEvent_concrete times m ctx h2] at he
    simp only [List.mem_append, List.mem_singleton] at he
    rcases he with he | he
    · exact Or.inl he
    · exact Or.inr ⟨h2, he⟩
  · left
    by_cases h1 : m.op = "createVehicle"
    · simpa [syncStep, h1, storeInsert, create_document] using he
    · by_cases h3 : m.op = "registerPart"
      · simpa [syncStep, h1, h2, h3, storeInsert, create_document] using he
      · simpa [syncStep_unknown_op storeInsert times m ctx h1 h2 h3] using he

/-- With the concrete store, any event document present after the sync loop
was either there at the start or stems from a `logEvent` mutation of the
list, its `occurred_at` defaulted at a clock index read during the loop. -/
theorem syncRun_event_origin (times : Nat → Nat) :
    ∀ (l : List Mutation) (ctx : Ctx) (e : Nat × Doc),
      e ∈ ((syncRun storeInsert times l ctx).2).store.event →
      e ∈ ctx.store.event ∨
        ∃ m ∈ l, m.op = "logEvent" ∧
          ∃ c, ctx.ctr ≤ c ∧ c < ((syncRun storeInsert times l ctx).2).ctr ∧
            e.2 = m.data.setdefault "occurred_at" (.jTime (times c))
  | [], _, e, he => Or.inl he
  | m :: ms, ctx, e, he => by
    rw [syncRun_cons] at he
    rcases syncRun_event_origin times ms (syncStep storeInsert times m ctx).2 e he with
      h | ⟨m', hm', hop', c, hc1, hc2, hdoc⟩
    · rcases syncStep_event_origin times m ctx e h with h' | ⟨hop, hdoc⟩
      · exact Or.inl h'
      · refine Or.inr ⟨m, List.mem_cons_self m ms, hop, ctx.ctr, Nat.le_refl _, ?_, ?_⟩
        · rw [syncRun_cons]
          have hstep : ctx.ctr < ((syncStep storeInsert times m ctx).2).ctr := by
            rw [syncStep_logEvent_concrete times m ctx hop]
            exact Nat.lt_succ_self _
          exact Nat.lt_of_lt_of_le hstep (syncRun_ctr_le storeInsert times ms _)
        · rw [hdoc]
    · refine Or.inr ⟨m', List.mem_cons_of_mem m hm', hop', c,
        Nat.le_trans (syncStep_ctr_le storeInsert times m ctx) hc1, ?_, hdoc⟩
      rw [syncRun_cons]
      exact hc2

/-! ### Shape of dumped payloads -/

theorem orElse_none_left {α : Type} (f : Unit → Option α) :
    (none : Option α).orElse f = f () := rfl

theorem orElse_some_left {α : Type} (a : α) (f : Unit → Option α) :
    (some a).orElse f = some a := rfl

theorem EventPayload.dump_get_vehicle_id (p : EventPayload) :
    (p.dump).get "vehicle_id" = p.vehicle_id.map .jStr := by
  cases h : p.vehicle_id <;>
    simp [EventPayload.dump, h, Doc.get_append, Doc.get_optField, Doc.get_cons,
      Doc.get_nil, orElse_none_left, orElse_some_left]

theorem EventPayload.dump_get_event_type (p : EventPayload) :
    (p.dump).get "event_type" = some (.jStr p.event_type) := by
  cases h : p.vehicle_id <;>
    simp [EventPayload.dump, h, Doc.get_append, Doc.get_optField, Doc.get_cons,
      Doc.get_nil, optField, orElse_none_left, orElse_some_left]

theorem EventPayload.dump_get_occurred_at (p : EventPayload) :
    (p.dump).get "occurred_at" = p.occurred_at.map .jTime := by
  cases h1 : p.vehicle_id <;> cases h2 : p.actor_id <;> cases h3 : p.notes <;>
    cases h4 : p.metadata <;> cases h5 : p.location <;> cases h6 : p.occurred_at <;>
    simp [EventPayload.dump, h1, h2, h3, h4, h5, h6, Doc.get_append,
      Doc.get_optField, Doc.get_cons, Doc.get_nil, orElse_none_left, orElse_some_left]

theorem eventDoc_get_vehicle_id (times : Nat → Nat) (p : EventPayload) (ctx : Ctx) :
    (eventDoc times p ctx).get "vehicle_id" = p.vehicle_id.map .jStr := by
  rw [eventDoc, Doc.get_setdefault_other _ _ _ _ (by decide),
    EventPayload.dump_get_vehicle_id]

theorem eventDoc_get_event_type (times : Nat → Nat) (p : EventPayload) (ctx : Ctx) :
    (eventDoc times p ctx).get "event_type" = some (.jStr p.event_type) := by
  rw [eventDoc, Doc.get_setdefault_other _ _ _ _ (by decide),
    EventPayload.dump_get_event_type]

/-! ### Branch behaviour of `log_event` -/

/-- Whatever branch `log_event` takes, the event itself is recorded. -/
theorem log_event_event_store (times : Nat → Nat) (p : EventPayload) (ctx : Ctx) :
    ((log_event times p ctx).2).store.event =
      ctx.store.event ++ [(ctx.store.nextId, eventDoc times p ctx)] := by
  unfold log_event
  dsimp only
  split
  · split
    · split <;> simp [create_document, Store.updateVehicle]
    · simp [create_document]
  · simp [create_document]

/-- The rule-engine guard is false when the vehicle reference is absent or
empty, or the event type is not one of the two triggering kinds. -/
theorem log_event_guard_false (times : Nat → Nat) (p : EventPayload) (ctx : Ctx)
    (h : p.vehicle_id = none ∨ p.vehicle_id = some "" ∨
         (¬ p.event_type = "dismantling" ∧ ¬ p.event_type = "scrap")) :
    ¬ (truthy ((eventDoc times p ctx).get "vehicle_id") ∧
       ((eventDoc times p ctx).get "event_type" = some (.jStr "dismantling") ∨
        (eventDoc times p ctx).get "event_type" = some (.jStr "scrap"))) := by
  rw [eventDoc_get_vehicle_id, eventDoc_get_event_type]
  rcases h with h | h | ⟨h1, h2⟩
  · simp [h, truthy]
  · simp [h, truthy]
  · simp [h1, h2]

/-- The silent-skip branch of `log_event`: no triggering reference, so the
event is inserted, nothing else changes, and the call succeeds. -/
theorem log_event_skip (times : Nat → Nat) (p : EventPayload) (ctx : Ctx)
    (h : p.vehicle_id = none ∨ p.vehicle_id = some "" ∨
         (¬ p.event_type = "dismantling" ∧ ¬ p.event_type = "scrap")) :
    log_event times p ctx =
      (.ok (serialize ctx.store.nextId (eventDoc times p ctx)),
       ⟨{ ctx.store with
            event := ctx.store.event ++ [(ctx.store.nextId, eventDoc times p ctx)],
            nextId := ctx.store.nextId + 1 },
        ctx.ctr + 1⟩) := by
  unfold log_event
  dsimp only
  rw [if_neg (log_event_guard_false times p ctx h)]
  simp [create_document]

/-- The raising branch of `log_event`: a malformed (non-id) vehicle reference
together with a triggering event type makes `ObjectId(...)` raise — after the
event was inserted. -/
theorem log_event_malformed (times : Nat → Nat) (p : EventPayload) (ctx : Ctx)
    (s : String) (hs : p.vehicle_id = some s) (hne : s ≠ "")
    (hvid : parseObjectId s = none)
    (htr : p.event_type = "dismantling" ∨ p.event_type = "scrap") :
    log_event times p ctx =
      (.error (s ++ " is not a valid ObjectId"),
       ⟨{ ctx.store with
            event := ctx.store.event ++ [(ctx.store.nextId, eventDoc times p ctx)],
            nextId := ctx.store.nextId + 1 },
        ctx.ctr + 1⟩) := by
  have hv := eventDoc_get_vehicle_id times p ctx
  rw [hs] at hv
  simp only [Option.map_some'] at hv
  have het := eventDoc_get_event_type times p ctx
  unfold log_event
  dsimp only
  rw [hv, het,
    if_pos ⟨by simp [truthy, hne], by rcases htr with h | h <;> simp [h]⟩]
  dsimp only
  rw [hvid]
  simp [create_document]

/-- The rule-engine branch of `log_event`: a well-formed triggering reference
inserts the event, then patches the matching vehicle with the derived status
and a fresh `updated_at`. -/
theorem log_event_triggered (times : Nat → Nat) (p : EventPayload) (ctx : Ctx)
    (s : String) (vid : Nat) (hs : p.vehicle_id = some s) (hne : s ≠ "")
    (hvid : parseObjectId s = some vid)
    (htr : p.event_type = "dismantling" ∨ p.event_type = "scrap") :
    log_event times p ctx =
      (.ok (serialize ctx.store.nextId (eventDoc times p ctx)),
       ⟨Store.updateVehicle
          { ctx.store with
              event := ctx.store.event ++ [(ctx.store.nextId, eventDoc times p ctx)],
              nextId := ctx.store.nextId + 1 }
          vid
          [("status", .jStr (if p.event_type = "dismantling" then "dismantled"
              else "scrapped")),
           ("updated_at", .jTime (times (ctx.ctr + 1)))],
        ctx.ctr + 2⟩) := by
  have hv := eventDoc_get_vehicle_id times p ctx
  rw [hs] at hv
  simp only [Option.map_some'] at hv
  have het := eventDoc_get_event_type times p ctx
  unfold log_event
  dsimp only
  rw [hv, het,
    if_pos ⟨by simp [truthy, hne], by rcases htr with h | h <;> simp [h]⟩]
  dsimp only
  rw [hvid]
  simp [create_document]

/-! ### Vehicle update lemmas -/

/-- Applying a `$set` patch of the rule engine to a two-field literal patch. -/
theorem patch_apply_two (d : Doc) (x y : JVal) :
    ([("status", x), ("updated_at", y)] : Doc).foldl
        (fun d kv => d.set kv.1 kv.2) d =
      (d.set "status" x).set "updated_at" y := rfl

/-- `update_one` patches the matching vehicle document. -/
theorem Store.updateVehicle_mem (st : Store) (vid : Nat) (patch : Doc) (d : Doc)
    (h : (vid, d) ∈ st.vehicle) :
    (vid, patch.foldl (fun d kv => d.set kv.1 kv.2) d) ∈
      (st.updateVehicle vid patch).vehicle := by
  have hm := List.mem_map_of_mem
    (f := fun p : Nat × Doc =>
      if p.1 = vid then (p.1, patch.foldl (fun d kv => d.set kv.1 kv.2) p.2) else p) h
  simpa [Store.updateVehicle] using hm

theorem map_update_no_match (vid : Nat) (patch : Doc) :
    ∀ (l : List (Nat × Doc)), (∀ d, (vid, d) ∉ l) →
      l.map (fun p =>
        if p.1 = vid then (p.1, patch.foldl (fun d kv => d.set kv.1 kv.2) p.2) else p) = l
  | [], _ => rfl
  | (i, d) :: l, h => by
    have hi : i ≠ vid := fun he => h d (he ▸ List.mem_cons_self _ _)
    have t := map_update_no_match vid patch l
      (fun d' hd' => h d' (List.mem_cons_of_mem _ hd'))
    simp [hi, t]

/-- `update_one` with a filter matching no document is a no-op. -/
theorem Store.updateVehicle_no_match (st : Store) (vid : Nat) (patch : Doc)
    (h : ∀ d, (vid, d) ∉ st.vehicle) : st.updateVehicle vid patch = st := by
  unfold Store.updateVehicle
  rw [map_update_no_match vid patch st.vehicle h]

/-! ### Shape of dumped vehicle and part payloads -/

theorem orElse_none_right {α : Type} (x : Option α) :
    x.orElse (fun _ => (none : Option α)) = x := by cases x <;> rfl

theorem CreateVehiclePayload.dump_get_status (p : CreateVehiclePayload) :
    (p.dump).get "status" = p.status.map .jStr := by
  simp [CreateVehiclePayload.dump, Doc.get_append, Doc.get_optField,
    orElse_none_left, orElse_none_right]

theorem CreateVehiclePayload.dump_get_engine_condition (p : CreateVehiclePayload) :
    (p.dump).get "engine_condition" = p.engine_condition.map .jStr := by
  simp [CreateVehiclePayload.dump, Doc.get_append, Doc.get_optField,
    orElse_none_left, orElse_none_right]

theorem CreateVehiclePayload.dump_get_vin (p : CreateVehiclePayload) :
    (p.dump).get "vin" = p.vin.map .jStr := by
  simp [CreateVehiclePayload.dump, Doc.get_append, Doc.get_optField,
    orElse_none_left, orElse_none_right]

theorem PartPayload.dump_get_condition (p : PartPayload) :
    (p.dump).get "condition" = p.condition.map .jStr := by
  simp [PartPayload.dump, Doc.get_append, Doc.get_optField, Doc.get_cons,
    orElse_none_left, orElse_none_right]

/-- `POST /api/vehicles` stores exactly the dumped payload. -/
theorem create_vehicle_store (p : CreateVehiclePayload) (ctx : Ctx) :
    (create_vehicle p ctx).2 =
      ⟨{ ctx.store with
          vehicle := ctx.store.vehicle ++ [(ctx.store.nextId, p.dump)],
          nextId := ctx.store.nextId + 1 }, ctx.ctr⟩ := by
  simp [create_vehicle, create_document]

/-- `POST /api/parts` stores exactly the dumped payload. -/
theorem register_part_store (p : PartPayload) (ctx : Ctx) :
    (register_part p ctx).2 =
      ⟨{ ctx.store with
          part := ctx.store.part ++ [(ctx.store.nextId, p.dump)],
          nextId := ctx.store.nextId + 1 }, ctx.ctr⟩ := by
  simp [register_part, create_document]

/-! ## Claims -/

/-- C3: for every sync batch, mutations are applied — and their result
entries emitted — in ascending `client_timestamp` order; the applied
sequence is a permutation of the input batch; and the sort is stable: for
any timestamp value, the subsequence of mutations carrying it equals their
subsequence in the input, so equal-timestamp mutations keep their relative
input order. -/
theorem claim3_sync_stable_sort (ins : InsertFn) (times : Nat → Nat)
    (batch : List Mutation) (ctx : Ctx) :
    ((sync ins times batch ctx).1.results).map MutResult.op =
        (syncSort batch).map Mutation.op ∧
      (syncSort batch).Sorted tsLE ∧
      List.Perm (syncSort batch) batch ∧
      ∀ t : Nat,
        (syncSort batch).filter (fun m => m.client_timestamp = t) =
          batch.filter (fun m => m.client_timestamp = t) := by
  refine ⟨syncRun_map_op ins times (syncSort batch) ctx,
    List.sorted_insertionSort tsLE batch,
    List.perm_insertionSort tsLE batch, ?_⟩
  intro t
  refine filter_insertionSort tsLE _ ?_ batch
  intro a b ha hb
  simp only [decide_eq_true_eq] at ha
  simp only [decide_eq_false_iff_not]
  unfold tsLE at hb
  omega

/-- C4: a mutation whose `op` is none of the three known operations yields a
result marked ignored with a reason — never an error, never a fault — and
leaves the state untouched, so every other mutation of the batch is applied
exactly as if the unknown one were absent; the last conjunct ties the loop
to the `/api/sync` endpoint, which accepts any batch. -/
theorem claim4_unknown_op_ignored (ins : InsertFn) (times : Nat → Nat)
    (ctx : Ctx) (l₁ l₂ : List Mutation) (m : Mutation)
    (h1 : m.op ≠ "createVehicle") (h2 : m.op ≠ "logEvent")
    (h3 : m.op ≠ "registerPart") :
    (syncRun ins times (l₁ ++ m :: l₂) ctx).1 =
        (syncRun ins times l₁ ctx).1 ++
          ⟨m.op, .ignored "unknown op"⟩ ::
            (syncRun ins times l₂ (syncRun ins times l₁ ctx).2).1 ∧
      (syncRun ins times (l₁ ++ m :: l₂) ctx).2 =
        (syncRun ins times l₂ (syncRun ins times l₁ ctx).2).2 ∧
      ∀ batch, (sync ins times batch ctx).1.results =
        (syncRun ins times (syncSort batch) ctx).1 := by
  have hstep := syncStep_unknown_op ins times m (syncRun ins times l₁ ctx).2 h1 h2 h3
  have happ := syncRun_append ins times l₁ (m :: l₂) ctx
  refine ⟨?_, ?_, fun batch => rfl⟩ <;>
    simp only [happ, syncRun_cons, hstep]

/-- Witness for C4: a batch `[createVehicle, op "foo", registerPart]` yields
ok, ignored "unknown op", ok — the unknown op blocks nothing. -/
theorem claim4_unknown_op_ignored_witness :
    (syncRun storeInsert (fun n => n)
        ([⟨"createVehicle", [("vin", .jStr "X1")], "c", 1⟩] ++
          ⟨"foo", [], "c", 2⟩ ::
            [⟨"registerPart", [("name", .jStr "door")], "c", 3⟩])
        ⟨Store.empty, 0⟩).1 =
      [⟨"createVehicle", .ok 0⟩, ⟨"foo", .ignored "unknown op"⟩,
        ⟨"registerPart", .ok 1⟩] := by
  have h := claim4_unknown_op_ignored storeInsert (fun n => n) ⟨Store.empty, 0⟩
    [⟨"createVehicle", [("vin", .jStr "X1")], "c", 1⟩]
    [⟨"registerPart", [("name", .jStr "door")], "c", 3⟩]
    ⟨"foo", [], "c", 2⟩ (by decide) (by decide) (by decide)
  rw [h.1]
  rfl

/-- C5: the sync loop yields exactly one result per input mutation, each
tagged with the mutation's `op` and being one of ok / ignored / error (the
three constructors of `MStatus`); the response's `server_time` is the clock
reading taken at completion of the loop; the loop decomposes around any
mutation — so a failure on one mutation never aborts the others; and a
persistence failure raised while applying one mutation is caught and turned
into an error result carrying the message, leaving the store as it was. -/
theorem claim5_error_isolation (ins : InsertFn) (times : Nat → Nat)
    (batch : List Mutation) (ctx : Ctx) :
    ((sync ins times batch ctx).1.results).length = batch.length ∧
      ((sync ins times batch ctx).1.results).map MutResult.op =
        (syncSort batch).map Mutation.op ∧
      (∀ r ∈ (sync ins times batch ctx).1.results,
        (∃ i, r.res = .ok i) ∨ (∃ why, r.res = .ignored why) ∨
          (∃ e, r.res = .error e)) ∧
      (sync ins times batch ctx).1.server_time =
        times ((syncRun ins times (syncSort batch) ctx).2).ctr ∧
      ctx.ctr ≤ ((syncRun ins times (syncSort batch) ctx).2).ctr ∧
      (∀ (l₁ l₂ : List Mutation) (m : Mutation) (ctx' : Ctx),
        syncRun ins times (l₁ ++ m :: l₂) ctx' =
          ((syncRun ins times l₁ ctx').1 ++
            (syncStep ins times m (syncRun ins times l₁ ctx').2).1 ::
              (syncRun ins times l₂
                (syncStep ins times m (syncRun ins times l₁ ctx').2).2).1,
           (syncRun ins times l₂
             (syncStep ins times m (syncRun ins times l₁ ctx').2).2).2)) ∧
      (∀ (m : Mutation) (ctx' : Ctx) (e : String),
        (m.op = "createVehicle" → ins .vehicle m.data ctx'.store = .error e →
          syncStep ins times m ctx' = (⟨m.op, .error e⟩, ctx')) ∧
        (m.op = "logEvent" →
          ins .event (m.data.setdefault "occurred_at" (.jTime (times ctx'.ctr)))
            ctx'.store = .error e →
          syncStep ins times m ctx' =
            (⟨m.op, .error e⟩, ⟨ctx'.store, ctx'.ctr + 1⟩)) ∧
        (m.op = "registerPart" → ins .part m.data ctx'.store = .error e →
          syncStep ins times m ctx' = (⟨m.op, .error e⟩, ctx'))) := by
  refine ⟨?_, syncRun_map_op ins times (syncSort batch) ctx, ?_, rfl,
    syncRun_ctr_le ins times (syncSort batch) ctx, ?_, ?_⟩
  · rw [show ((sync ins times batch ctx).1.results).length =
        ((syncRun ins times (syncSort batch) ctx).1).length from rfl,
      syncRun_length ins times (syncSort batch) ctx]
    exact List.length_insertionSort tsLE batch
  · intro r _
    rcases r with ⟨op, res⟩
    rcases res with i | why | e
    · exact Or.inl ⟨i, rfl⟩
    · exact Or.inr (Or.inl ⟨why, rfl⟩)
    · exact Or.inr (Or.inr ⟨e, rfl⟩)
  · intro l₁ l₂ m ctx'
    simp only [syncRun_append ins times l₁ (m :: l₂) ctx', syncRun_cons]
  · intro m ctx' e
    exact ⟨fun h he => syncStep_createVehicle_error ins times m ctx' e h he,
      fun h he => syncStep_logEvent_error ins times m ctx' e h he,
      fun h he => syncStep_registerPart_error ins times m ctx' e h he⟩

/-- Witness for C5: with a store whose insertion fails, a one-mutation batch
still returns one result, and the step converts the failure into an error
result carrying the message, leaving the state untouched. -/
theorem claim5_error_isolation_witness :
    ((sync (fun _ _ _ => Except.error "db down") (fun n => n)
        [⟨"registerPart", [("name", .jStr "door")], "c", 5⟩]
        ⟨Store.empty, 0⟩).1.results).length = 1 ∧
      syncStep (fun _ _ _ => Except.error "db down") (fun n => n)
          ⟨"registerPart", [("name", .jStr "door")], "c", 5⟩ ⟨Store.empty, 0⟩ =
        (⟨"registerPart", .error "db down"⟩, ⟨Store.empty, 0⟩) := by
  have h := claim5_error_isolation (fun _ _ _ => Except.error "db down")
    (fun n => n) [⟨"registerPart", [("name", .jStr "door")], "c", 5⟩]
    ⟨Store.empty, 0⟩
  exact ⟨h.1, (h.2.2.2.2.2.2 ⟨"registerPart", [("name", .jStr "door")], "c", 5⟩
    ⟨Store.empty, 0⟩ "db down").2.2 rfl rfl⟩

/-- C6: for an event logged via `POST /api/events` whose vehicle reference
resolves to an existing vehicle: a `dismantling` event sets that vehicle's
status to "dismantled", a `scrap` event sets it to "scrapped", both stamping
a fresh `updated_at` timestamp on the vehicle; any other event type leaves
the vehicle collection untouched. -/
theorem claim6_rule_engine_events (times : Nat → Nat) (p : EventPayload)
    (ctx : Ctx) (s : String) (vid : Nat) (vdoc : Doc)
    (hs : p.vehicle_id = some s) (hne : s ≠ "")
    (hvid : parseObjectId s = some vid)
    (hmem : (vid, vdoc) ∈ ctx.store.vehicle) :
    (p.event_type = "dismantling" →
      (vid, (vdoc.set "status" (.jStr "dismantled")).set "updated_at"
          (.jTime (times (ctx.ctr + 1)))) ∈
        ((log_event times p ctx).2).store.vehicle ∧
      ∃ d, (log_event times p ctx).1 = .ok d) ∧
    (p.event_type = "scrap" →
      (vid, (vdoc.set "status" (.jStr "scrapped")).set "updated_at"
          (.jTime (times (ctx.ctr + 1)))) ∈
        ((log_event times p ctx).2).store.vehicle ∧
      ∃ d, (log_event times p ctx).1 = .ok d) ∧
    (¬ p.event_type = "dismantling" → ¬ p.event_type = "scrap" →
      ((log_event times p ctx).2).store.vehicle = ctx.store.vehicle) := by
  refine ⟨fun h => ?_, fun h => ?_, fun h1 h2 => ?_⟩
  · rw [log_event_triggered times p ctx s vid hs hne hvid (Or.inl h)]
    refine ⟨?_, ⟨_, rfl⟩⟩
    show (vid, _) ∈ (Store.updateVehicle _ vid
      [("status", JVal.jStr (if p.event_type = "dismantling" then "dismantled"
          else "scrapped")),
       ("updated_at", .jTime (times (ctx.ctr + 1)))]).vehicle
    rw [if_pos h]
    have hm := Store.updateVehicle_mem
      { ctx.store with
          event := ctx.store.event ++ [(ctx.store.nextId, eventDoc times p ctx)],
          nextId := ctx.store.nextId + 1 }
      vid [("status", JVal.jStr "dismantled"),
        ("updated_at", .jTime (times (ctx.ctr + 1)))] vdoc hmem
    rw [patch_apply_two] at hm
    exact hm
  · rw [log_event_triggered times p ctx s vid hs hne hvid (Or.inr h)]
    refine ⟨?_, ⟨_, rfl⟩⟩
    have hnd : ¬ p.event_type = "dismantling" := by
      rw [h]
      decide
    show (vid, _) ∈ (Store.updateVehicle _ vid
      [("status", JVal.jStr (if p.event_type = "dismantling" then "dismantled"
          else "scrapped")),
       ("updated_at", .jTime (times (ctx.ctr + 1)))]).vehicle
    rw [if_neg hnd]
    have hm := Store.updateVehicle_mem
      { ctx.store with
          event := ctx.store.event ++ [(ctx.store.nextId, eventDoc times p ctx)],
          nextId := ctx.store.nextId + 1 }
      vid [("status", JVal.jStr "scrapped"),
        ("updated_at", .jTime (times (ctx.ctr + 1)))] vdoc hmem
    rw [patch_apply_two] at hm
    exact hm
  · rw [log_event_skip times p ctx (Or.inr (Or.inr ⟨h1, h2⟩))]

/-- Witness for C6: a concrete dismantling event against a store holding
vehicle 0 patches that vehicle, and a concrete "note" event leaves the
vehicle collection untouched. -/
theorem claim6_rule_engine_events_witness :
    ((0, Doc.set (Doc.set [("vin", JVal.jStr "X1")] "status"
          (JVal.jStr "dismantled")) "updated_at" (JVal.jTime 1)) ∈
      ((log_event (fun n => n)
          ⟨some "0", "dismantling", none, none, none, none, none⟩
          ⟨⟨[(0, [("vin", JVal.jStr "X1")])], [], [], 1⟩, 0⟩).2).store.vehicle) ∧
    ((log_event (fun n => n)
        ⟨some "0", "note", none, none, none, none, none⟩
        ⟨⟨[(0, [("vin", JVal.jStr "X1")])], [], [], 1⟩, 0⟩).2).store.vehicle =
      [(0, [("vin", JVal.jStr "X1")])] := by
  have h1 := claim6_rule_engine_events (fun n => n)
    ⟨some "0", "dismantling", none, none, none, none, none⟩
    ⟨⟨[(0, [("vin", JVal.jStr "X1")])], [], [], 1⟩, 0⟩ "0" 0
    [("vin", JVal.jStr "X1")] rfl (by decide) (by decide) (by decide)
  have h2 := claim6_rule_engine_events (fun n => n)
    ⟨some "0", "note", none, none, none, none, none⟩
    ⟨⟨[(0, [("vin", JVal.jStr "X1")])], [], [], 1⟩, 0⟩ "0" 0
    [("vin", JVal.jStr "X1")] rfl (by decide) (by decide) (by decide)
  exact ⟨(h1.1 rfl).1, h2.2.2 (by decide) (by decide)⟩

/-- C7 counterexample: a logged event whose vehicle reference is a malformed
id string ("zz"), with a triggering event type, makes the request FAIL: the
`ObjectId(...)` parse raises and `log_event` returns an error (after the
event was already inserted) — refuting the claim that the operation does not
fail whenever the reference fails to resolve. -/
theorem claim7_counterexample :
    ((log_event (fun n => n)
        ⟨some "zz", "dismantling", none, none, none, none, none⟩
        ⟨⟨[(0, [("vin", JVal.jStr "X1")])], [], [], 1⟩, 0⟩).1 =
      Except.error ("zz" ++ " is not a valid ObjectId")) ∧
    (((log_event (fun n => n)
        ⟨some "zz", "dismantling", none, none, none, none, none⟩
        ⟨⟨[(0, [("vin", JVal.jStr "X1")])], [], [], 1⟩, 0⟩).2).store.event).length = 1 := by
  constructor
  · rfl
  · rfl

/-- C7 amended: when the vehicle reference is absent, empty, or a
well-formed id that resolves to no existing vehicle, the rule is skipped
silently — the call succeeds, no vehicle is touched, and the event is still
recorded.  When the reference is a malformed id string and the event type
triggers the rule, the call instead fails with the `ObjectId` error — though
the event is still recorded and no vehicle is touched. -/
theorem claim7_amended_silent_skip (times : Nat → Nat) (p : EventPayload)
    (ctx : Ctx) :
    ((p.vehicle_id = none ∨ p.vehicle_id = some "" ∨
        (∃ s vid, p.vehicle_id = some s ∧ parseObjectId s = some vid ∧
          ∀ d, (vid, d) ∉ ctx.store.vehicle)) →
      (∃ d, (log_event times p ctx).1 = .ok d) ∧
      ((log_event times p ctx).2).store.vehicle = ctx.store.vehicle ∧
      ((log_event times p ctx).2).store.event =
        ctx.store.event ++ [(ctx.store.nextId, eventDoc times p ctx)]) ∧
    (∀ s, p.vehicle_id = some s → s ≠ "" → parseObjectId s = none →
      (p.event_type = "dismantling" ∨ p.event_type = "scrap") →
      (log_event times p ctx).1 = .error (s ++ " is not a valid ObjectId") ∧
      ((log_event times p ctx).2).store.vehicle = ctx.store.vehicle ∧
      ((log_event times p ctx).2).store.event =
        ctx.store.event ++ [(ctx.store.nextId, eventDoc times p ctx)]) := by
  constructor
  · intro h
    rcases h with h | h | ⟨s, vid, hs, hvid, hnomem⟩
    · rw [log_event_skip times p ctx (Or.inl h)]
      exact ⟨⟨_, rfl⟩, rfl, rfl⟩
    · rw [log_event_skip times p ctx (Or.inr (Or.inl h))]
      exact ⟨⟨_, rfl⟩, rfl, rfl⟩
    · by_cases hse : s = ""
      · rw [log_event_skip times p ctx (Or.inr (Or.inl (hse ▸ hs)))]
        exact ⟨⟨_, rfl⟩, rfl, rfl⟩
      · by_cases htr : p.event_type = "dismantling" ∨ p.event_type = "scrap"
        · rw [log_event_triggered times p ctx s vid hs hse hvid htr]
          refine ⟨⟨_, rfl⟩, ?_, rfl⟩
          have hnm := Store.updateVehicle_no_match
            { ctx.store with
                event := ctx.store.event ++ [(ctx.store.nextId, eventDoc times p ctx)],
                nextId := ctx.store.nextId + 1 }
            vid [("status", JVal.jStr (if p.event_type = "dismantling"
                then "dismantled" else "scrapped")),
              ("updated_at", JVal.jTime (times (ctx.ctr + 1)))] hnomem
          show (Store.updateVehicle _ vid _).vehicle = ctx.store.vehicle
          rw [hnm]
        · push_neg at htr
          rw [log_event_skip times p ctx (Or.inr (Or.inr htr))]
          exact ⟨⟨_, rfl⟩, rfl, rfl⟩
  · intro s hs hne hvid htr
    rw [log_event_malformed times p ctx s hs hne hvid htr]
    exact ⟨rfl, rfl, rfl⟩

/-- Witness for C7 (amended): a well-formed but unresolvable reference "7"
skips silently with the event recorded; the malformed "zz" case errors with
the event still recorded. -/
theorem claim7_amended_silent_skip_witness :
    ((∃ d, (log_event (fun n => n)
        ⟨some "7", "dismantling", none, none, none, none, none⟩
        ⟨⟨[(0, [("vin", JVal.jStr "X1")])], [], [], 1⟩, 0⟩).1 = .ok d) ∧
      ((log_event (fun n => n)
          ⟨some "7", "dismantling", none, none, none, none, none⟩
          ⟨⟨[(0, [("vin", JVal.jStr "X1")])], [], [], 1⟩, 0⟩).2).store.vehicle =
        [(0, [("vin", JVal.jStr "X1")])]) ∧
    (log_event (fun n => n)
        ⟨some "zz", "scrap", none, none, none, none, none⟩
        ⟨⟨[(0, [("vin", JVal.jStr "X1")])], [], [], 1⟩, 0⟩).1 =
      .error ("zz" ++ " is not a valid ObjectId") := by
  have h1 := claim7_amended_silent_skip (fun n => n)
    ⟨some "7", "dismantling", none, none, none, none, none⟩
    ⟨⟨[(0, [("vin", JVal.jStr "X1")])], [], [], 1⟩, 0⟩
  have h2 := claim7_amended_silent_skip (fun n => n)
    ⟨some "zz", "scrap", none, none, none, none, none⟩
    ⟨⟨[(0, [("vin", JVal.jStr "X1")])], [], [], 1⟩, 0⟩
  have ha := h1.1 (Or.inr (Or.inr ⟨"7", 7, rfl, by decide,
    by intro d hd; simp at hd⟩))
  have hb := h2.2 "zz" rfl (by decide) (by decide) (Or.inr rfl)
  exact ⟨⟨ha.1, ha.2.1⟩, hb.1⟩

/-- One `dismantling` event with a resolving reference patches the vehicle
to status "dismantled" with `updated_at` stamped at the second clock read,
and leaves the call counter advanced by two. -/
theorem log_event_dismantling_mem (times : Nat → Nat) (p : EventPayload)
    (ctx : Ctx) (s : String) (vid : Nat) (vdoc : Doc)
    (hs : p.vehicle_id = some s) (hne : s ≠ "")
    (hvid : parseObjectId s = some vid) (ht : p.event_type = "dismantling")
    (hmem : (vid, vdoc) ∈ ctx.store.vehicle) :
    (vid, (vdoc.set "status" (.jStr "dismantled")).set "updated_at"
        (.jTime (times (ctx.ctr + 1)))) ∈
      ((log_event times p ctx).2).store.vehicle ∧
    ((log_event times p ctx).2).ctr = ctx.ctr + 2 := by
  rw [log_event_triggered times p ctx s vid hs hne hvid (Or.inl ht)]
  refine ⟨?_, rfl⟩
  show (vid, _) ∈ (Store.updateVehicle _ vid
    [("status", JVal.jStr (if p.event_type = "dismantling" then "dismantled"
        else "scrapped")),
     ("updated_at", .jTime (times (ctx.ctr + 1)))]).vehicle
  rw [if_pos ht]
  have hm := Store.updateVehicle_mem
    { ctx.store with
        event := ctx.store.event ++ [(ctx.store.nextId, eventDoc times p ctx)],
        nextId := ctx.store.nextId + 1 }
    vid [("status", JVal.jStr "dismantled"),
      ("updated_at", .jTime (times (ctx.ctr + 1)))] vdoc hmem
  rw [patch_apply_two] at hm
  exact hm

/-- C8: applying two `dismantling` events for the same vehicle in sequence
is idempotent on status — the vehicle ends at "dismantled", not reverted or
duplicated — and its `updated_at` is the stamp of the second application,
which is at or after the first one's. -/
theorem claim8_dismantling_idempotent (times : Nat → Nat)
    (hmono : Monotone times) (p₁ p₂ : EventPayload) (ctx : Ctx) (s : String)
    (vid : Nat) (vdoc : Doc)
    (hs₁ : p₁.vehicle_id = some s) (hs₂ : p₂.vehicle_id = some s)
    (hne : s ≠ "") (hvid : parseObjectId s = some vid)
    (ht₁ : p₁.event_type = "dismantling") (ht₂ : p₂.event_type = "dismantling")
    (hmem : (vid, vdoc) ∈ ctx.store.vehicle) :
    ∃ d, (vid, d) ∈
        (((log_event times p₂ ((log_event times p₁ ctx).2)).2).store).vehicle ∧
      d.get "status" = some (.jStr "dismantled") ∧
      d.get "updated_at" = some (.jTime (times (ctx.ctr + 3))) ∧
      times (ctx.ctr + 1) ≤ times (ctx.ctr + 3) := by
  have h1 := log_event_dismantling_mem times p₁ ctx s vid vdoc hs₁ hne hvid ht₁ hmem
  have h2 := log_event_dismantling_mem times p₂ ((log_event times p₁ ctx).2)
    s vid _ hs₂ hne hvid ht₂ h1.1
  rw [h1.2] at h2
  refine ⟨_, h2.1, ?_, ?_, hmono (by omega)⟩
  · rw [Doc.get_set_other _ _ _ _ (by decide), Doc.get_set_self]
  · rw [Doc.get_set_self]

/-- Witness for C8: two concrete dismantling events on vehicle 0 leave it
dismantled with the later stamp. -/
theorem claim8_dismantling_idempotent_witness :
    ∃ d, (0, d) ∈
        (((log_event (fun n => n)
            ⟨some "0", "dismantling", none, none, none, none, none⟩
            ((log_event (fun n => n)
                ⟨some "0", "dismantling", none, none, none, none, none⟩
                ⟨⟨[(0, [("vin", JVal.jStr "X1")])], [], [], 1⟩, 0⟩).2)).2).store).vehicle ∧
      d.get "status" = some (.jStr "dismantled") ∧
      d.get "updated_at" = some (.jTime 3) ∧
      (1 : Nat) ≤ 3 := by
  exact claim8_dismantling_idempotent (fun n => n) (fun _ _ hh => hh)
    ⟨some "0", "dismantling", none, none, none, none, none⟩
    ⟨some "0", "dismantling", none, none, none, none, none⟩
    ⟨⟨[(0, [("vin", JVal.jStr "X1")])], [], [], 1⟩, 0⟩ "0" 0
    [("vin", JVal.jStr "X1")] rfl rfl (by decide) (by decide) rfl rfl (by decide)

/-- C9: (sync) every event newly stored by a sync batch stems from a
`logEvent` mutation; when that mutation lacked `occurred_at`, the stored
event carries a server-assigned timestamp lying between the clock at the
start of processing and the `server_time` returned in the response, and when
it carried one, the client-supplied value is kept.  (`POST /api/events`) the
stored event's `occurred_at` is the entry clock reading when the payload
lacks it, and the client-supplied value otherwise. -/
theorem claim9_occurred_at_default (times : Nat → Nat) (hmono : Monotone times)
    (batch : List Mutation) (ctx : Ctx) :
    (∀ e : Nat × Doc,
      e ∈ ((sync storeInsert times batch ctx).2).store.event →
      e ∉ ctx.store.event →
      ∃ m ∈ batch, m.op = "logEvent" ∧
        ((m.data.get "occurred_at" = none →
          ∃ tv, (e.2).get "occurred_at" = some (.jTime tv) ∧
            times ctx.ctr ≤ tv ∧
            tv ≤ (sync storeInsert times batch ctx).1.server_time) ∧
         (∀ v, m.data.get "occurred_at" = some v →
            (e.2).get "occurred_at" = some v))) ∧
    (∀ (p : EventPayload) (ctx' : Ctx),
      ((log_event times p ctx').2).store.event =
        ctx'.store.event ++ [(ctx'.store.nextId, eventDoc times p ctx')] ∧
      (p.occurred_at = none →
        (eventDoc times p ctx').get "occurred_at" =
          some (.jTime (times ctx'.ctr))) ∧
      (∀ t : Nat, p.occurred_at = some t →
        (eventDoc times p ctx').get "occurred_at" = some (.jTime t))) := by
  constructor
  · intro e he hnot
    rcases syncRun_event_origin times (syncSort batch) ctx e he with
      h | ⟨m, hm, hop, c, hc1, hc2, hdoc⟩
    · exact absurd h hnot
    refine ⟨m, (List.perm_insertionSort tsLE batch).mem_iff.1 hm, hop, ?_, ?_⟩
    · intro hnone
      refine ⟨times c, ?_, hmono hc1, hmono (Nat.le_of_lt hc2)⟩
      rw [hdoc]
      exact Doc.get_setdefault_of_get_none _ _ _ hnone
    · intro v hv
      rw [hdoc, Doc.setdefault_of_get_some _ _ _ _ hv]
      exact hv
  · intro p ctx'
    refine ⟨log_event_event_store times p ctx', ?_, ?_⟩
    · intro hnone
      have hd : (p.dump).get "occurred_at" = none := by
        rw [EventPayload.dump_get_occurred_at, hnone]
        rfl
      exact Doc.get_setdefault_of_get_none _ _ _ hd
    · intro t ht
      have hd : (p.dump).get "occurred_at" = some (.jTime t) := by
        rw [EventPayload.dump_get_occurred_at, ht]
        rfl
      rw [eventDoc, Doc.setdefault_of_get_some _ _ _ _ hd]
      exact hd

/-- Witness for C9: under the identity clock, an event posted without
`occurred_at` is stored with the entry reading (0), and one posted with
`occurred_at = 7` keeps 7. -/
theorem claim9_occurred_at_default_witness :
    (eventDoc (fun n => n) ⟨none, "note", none, none, none, none, none⟩
        ⟨Store.empty, 0⟩).get "occurred_at" = some (.jTime 0) ∧
    (eventDoc (fun n => n) ⟨none, "note", none, none, none, none, some 7⟩
        ⟨Store.empty, 0⟩).get "occurred_at" = some (.jTime 7) := by
  have h := claim9_occurred_at_default (fun n => n) (fun _ _ hh => hh) []
    ⟨Store.empty, 0⟩
  exact ⟨(h.2 ⟨none, "note", none, none, none, none, none⟩ ⟨Store.empty, 0⟩).2.1 rfl,
    (h.2 ⟨none, "note", none, none, none, none, some 7⟩ ⟨Store.empty, 0⟩).2.2 7 rfl⟩

/-- C10: `model_dump(exclude_none=True)` strips explicitly-null fields
before persistence, so the stored document simply lacks them: an enumerated
field sent as `null` is neither stored as null nor defaulted to "unknown" —
the default applies only to omitted fields — and a supplied value is stored
as given.  Shown for the vehicle `status`, `engine_condition` and `vin`
fields and the part `condition` field, with the endpoints persisting exactly
the dumped document. -/
theorem claim10_null_stripped (b : VehicleInput) (bp : PartInput) (n : String)
    (hname : bp.name = .val n) (ctx : Ctx) :
    ((CreateVehiclePayload.parse b).dump).get "status" =
        (match b.status with
         | .omitted => some (.jStr "unknown")
         | .null => none
         | .val s => some (.jStr s)) ∧
    ((CreateVehiclePayload.parse b).dump).get "engine_condition" =
        (match b.engine_condition with
         | .omitted => some (.jStr "unknown")
         | .null => none
         | .val s => some (.jStr s)) ∧
    ((CreateVehiclePayload.parse b).dump).get "vin" =
        (match b.vin with
         | .omitted => none
         | .null => none
         | .val s => some (.jStr s)) ∧
    (create_vehicle (CreateVehiclePayload.parse b) ctx).2.store.vehicle =
      ctx.store.vehicle ++
        [(ctx.store.nextId, (CreateVehiclePayload.parse b).dump)] ∧
    ∃ q, PartPayload.parse bp = .ok q ∧
      (q.dump).get "condition" =
        (match bp.condition with
         | .omitted => some (.jStr "unknown")
         | .null => none
         | .val s => some (.jStr s)) ∧
      (register_part q ctx).2.store.part =
        ctx.store.part ++ [(ctx.store.nextId, q.dump)] := by
  refine ⟨?_, ?_, ?_, ?_, ?_⟩
  · rw [CreateVehiclePayload.dump_get_status]
    show (b.status.parse (some "unknown")).map JVal.jStr = _
    cases b.status <;> rfl
  · rw [CreateVehiclePayload.dump_get_engine_condition]
    show (b.engine_condition.parse (some "unknown")).map JVal.jStr = _
    cases b.engine_condition <;> rfl
  · rw [CreateVehiclePayload.dump_get_vin]
    show (b.vin.parse none).map JVal.jStr = _
    cases b.vin <;> rfl
  · rw [create_vehicle_store]
  · refine ⟨⟨bp.vehicle_id.parse none, n, bp.serial_number.parse none,
      bp.condition.parse (some "unknown"), bp.location.parse none,
      bp.price_etb.parse none⟩, ?_, ?_, ?_⟩
    · unfold PartPayload.parse
      rw [hname]
    · rw [PartPayload.dump_get_condition]
      cases bp.condition <;> rfl
    · rw [register_part_store]

/-- Witness for C10: a vehicle body with `status: null` and `vin: "V"` is
stored without a `status` key and with the vin; a part body with
`condition: null` parses and dumps without a `condition` key. -/
theorem claim10_null_stripped_witness :
    ((CreateVehiclePayload.parse
        ⟨.val "V", .omitted, .omitted, .omitted, .null, .omitted, .omitted,
          .omitted, .omitted, .omitted, .null⟩).dump).get "status" = none ∧
    ((CreateVehiclePayload.parse
        ⟨.val "V", .omitted, .omitted, .omitted, .null, .omitted, .omitted,
          .omitted, .omitted, .omitted, .null⟩).dump).get "vin" =
      some (.jStr "V") ∧
    ∃ q, PartPayload.parse
        ⟨.omitted, .val "door", .omitted, .null, .omitted, .omitted⟩ =
          .ok q ∧
      (q.dump).get "condition" = none := by
  have h := claim10_null_stripped
    ⟨.val "V", .omitted, .omitted, .omitted, .null, .omitted, .omitted,
      .omitted, .omitted, .omitted, .null⟩
    ⟨.omitted, .val "door", .omitted, .null, .omitted, .omitted⟩
    "door" rfl ⟨Store.empty, 0⟩
  obtain ⟨q, hq1, hq2, _⟩ := h.2.2.2.2
  exact ⟨h.1, h.2.2.1, q, hq1, hq2⟩

/-- C1 (code bug): the end-to-end scenario — a `createVehicle` followed by a
`logEvent` of type "dismantling" referencing the vehicle just created — run
through `/api/sync`: both mutations apply (ok results, the event is
persisted with its defaulted `occurred_at`), yet the vehicle document is
left untouched, because the `logEvent` branch of `sync` never invokes the
rule engine: the reconciled vehicle has no `status` key, so its status is
not "dismantled". -/
theorem claim1_sync_never_invokes_rule_engine :
    (sync storeInsert (fun n => n)
        [⟨"createVehicle", [("vin", JVal.jStr "X1")], "c", 1⟩,
         ⟨"logEvent", [("vehicle_id", JVal.jStr "0"),
            ("event_type", JVal.jStr "dismantling")], "c", 2⟩]
        ⟨Store.empty, 0⟩).1.results =
      [⟨"createVehicle", .ok 0⟩, ⟨"logEvent", .ok 1⟩] ∧
    ((sync storeInsert (fun n => n)
        [⟨"createVehicle", [("vin", JVal.jStr "X1")], "c", 1⟩,
         ⟨"logEvent", [("vehicle_id", JVal.jStr "0"),
            ("event_type", JVal.jStr "dismantling")], "c", 2⟩]
        ⟨Store.empty, 0⟩).2).store.vehicle =
      [(0, [("vin", JVal.jStr "X1")])] ∧
    ((sync storeInsert (fun n => n)
        [⟨"createVehicle", [("vin", JVal.jStr "X1")], "c", 1⟩,
         ⟨"logEvent", [("vehicle_id", JVal.jStr "0"),
            ("event_type", JVal.jStr "dismantling")], "c", 2⟩]
        ⟨Store.empty, 0⟩).2).store.event =
      [(1, [("vehicle_id", JVal.jStr "0"),
            ("event_type", JVal.jStr "dismantling"),
            ("occurred_at", JVal.jTime 0)])] ∧
    Doc.get [("vin", JVal.jStr "X1")] "status" ≠ some (.jStr "dismantled") := by
  exact ⟨rfl, rfl, rfl, by decide⟩

/-- C2 (code bug): out-of-enum values are not rejected.  main.py's payload
classes type the enumerated fields as plain optional strings and never use
the `Literal` enums declared in schemas.py, so a vehicle `status`
"totaled" passes validation and is persisted verbatim, a part `condition`
"pristine" parses, and an event with `event_type` "warp" is stored with an
ok response. -/
theorem claim2_out_of_enum_accepted :
    (create_vehicle (CreateVehiclePayload.parse
        ⟨.omitted, .omitted, .omitted, .omitted, .omitted, .omitted, .omitted,
          .omitted, .omitted, .omitted, .val "totaled"⟩)
        ⟨Store.empty, 0⟩).2.store.vehicle =
      [(0, [("engine_condition", JVal.jStr "unknown"),
            ("body_condition", JVal.jStr "unknown"),
            ("damage_level", JVal.jStr "unknown"),
            ("status", JVal.jStr "totaled")])] ∧
    (∃ q, PartPayload.parse ⟨.omitted, .val "door", .omitted, .val "pristine",
        .omitted, .omitted⟩ = .ok q ∧
      (q.dump).get "condition" = some (.jStr "pristine")) ∧
    (∃ d, (log_event (fun n => n)
        ⟨none, "warp", none, none, none, none, none⟩ ⟨Store.empty, 0⟩).1 =
          .ok d) ∧
    ((log_event (fun n => n) ⟨none, "warp", none, none, none, none, none⟩
        ⟨Store.empty, 0⟩).2).store.event =
      [(0, [("event_type", JVal.jStr "warp"),
            ("occurred_at", JVal.jTime 0)])] := by
  exact ⟨rfl, ⟨_, rfl, rfl⟩, ⟨_, rfl⟩, rfl⟩

end ELV
